import Mathlib

set_option autoImplicit false
set_option maxRecDepth 8000

namespace Pstore

/-
Shallow embedding of the pstore persistent-log storage engine
(fs/pstore/ram_core.c, fs/pstore/ram.c, fs/pstore/platform.c).

Bytes are modelled as natural numbers; the data area of a persistent RAM
zone is a list of bytes of length buffer_size.  The Reed-Solomon parity
areas live physically outside the data area (persistent_ram_init_ecc
carves them off buffer_size before any write happens), so the parity
recomputation helpers do not change the modelled state; the parity
arithmetic of initialisation is modelled separately below.
-/

/- struct persistent_ram_zone together with the header fields
   (buffer->start, buffer->size) and the data area it owns.  old_log and
   old_log_size are the snapshot fields of the zone. -/
structure PRZ where
  buffer_size : Nat
  start : Nat
  size : Nat
  data : List Nat
  old_log : Option (List Nat)
  old_log_size : Nat
deriving DecidableEq

def przDefault : PRZ := ⟨0, 0, 0, [], none, 0⟩

/- the loop of buffer_start_add: while (new >= buffer_size) new -= buffer_size.
   The loop is written with explicit fuel so that it is structurally
   recursive and reduces inside the kernel; an initial fuel of new is
   enough because every iteration removes at least one when
   0 < buffer_size.  (The source loop does not terminate when
   buffer_size = 0; no caller reaches that case.) -/
def bufferWrapGo (bs : Nat) : Nat → Nat → Nat
  | 0, new => new
  | Nat.succ fuel, new =>
    if 0 < bs ∧ bs ≤ new then bufferWrapGo bs fuel (new - bs) else new

def bufferWrap (bs new : Nat) : Nat := bufferWrapGo bs new new

/- increase and wrap the start pointer, returning the old value
   (buffer_start_add). -/
def buffer_start_add (z : PRZ) (a : Nat) : Nat × PRZ :=
  (z.start, { z with start := bufferWrap z.buffer_size (z.start + a) })

/- increase the size counter until it hits the max size (buffer_size_add). -/
def buffer_size_add (z : PRZ) (a : Nat) : PRZ :=
  if z.size = z.buffer_size then z
  else if z.buffer_size < z.size + a then { z with size := z.buffer_size }
  else { z with size := z.size + a }

/- memcpy of s into the data area at offset start; under the cursor
   invariants start + length s never exceeds the data length. -/
def listWrite (d : List Nat) (start : Nat) (s : List Nat) : List Nat :=
  d.take start ++ s ++ d.drop (start + s.length)

/- persistent_ram_update: memcpy_toio of count bytes of s at offset start,
   followed by persistent_ram_update_ecc (which only touches the parity
   area outside the modelled data area). -/
def persistent_ram_update (z : PRZ) (s : List Nat) (start count : Nat) : PRZ :=
  { z with data := listWrite z.data start (s.take count) }

/- persistent_ram_update_header_ecc recomputes the parity of the header;
   the parity bytes live outside the modelled state. -/
def persistent_ram_update_header_ecc (z : PRZ) : PRZ := z

/- persistent_ram_update_user: copy_from_user followed by the ECC update.
   The fault flag models a faulting user source; a faulting copy is
   modelled as transferring nothing (the cursor fields, which the claims
   are about, are unaffected by how many bytes a failed copy moved).
   EFAULT = 14. -/
def persistent_ram_update_user (z : PRZ) (s : List Nat) (start count : Nat)
    (fault : Bool) : PRZ × Int :=
  if fault then (z, -14)
  else ({ z with data := listWrite z.data start (s.take count) }, 0)

/- persistent_ram_write: append count bytes, keeping only the trailing
   buffer_size bytes of an oversized payload, updating the size and start
   cursors and writing in at most two segments when the copy wraps. -/
def persistent_ram_write (z : PRZ) (s : List Nat) : PRZ :=
  let count := s.length
  let sc : List Nat × Nat :=
    if z.buffer_size < count then (s.drop (count - z.buffer_size), z.buffer_size)
    else (s, count)
  let z1 := buffer_size_add z sc.2
  let p := buffer_start_add z1 sc.2
  let rem := p.2.buffer_size - p.1
  if rem < sc.2 then
    let za := persistent_ram_update p.2 sc.1 p.1 rem
    let zb := persistent_ram_update za (sc.1.drop rem) 0 (sc.2 - rem)
    persistent_ram_update_header_ecc zb
  else
    persistent_ram_update_header_ecc (persistent_ram_update p.2 sc.1 p.1 sc.2)

/- persistent_ram_write_user: same cursor behaviour as persistent_ram_write,
   but each copy may fault; the second segment is copied only if the first
   succeeded, and the return value is the first error or count. -/
def persistent_ram_write_user (z : PRZ) (s : List Nat) (fault1 fault2 : Bool) :
    PRZ × Int :=
  let count := s.length
  let sc : List Nat × Nat :=
    if z.buffer_size < count then (s.drop (count - z.buffer_size), z.buffer_size)
    else (s, count)
  let z1 := buffer_size_add z sc.2
  let p := buffer_start_add z1 sc.2
  let rem := p.2.buffer_size - p.1
  if rem < sc.2 then
    let ra := persistent_ram_update_user p.2 sc.1 p.1 rem fault1
    let rb :=
      if ra.2 = 0 then
        persistent_ram_update_user ra.1 (sc.1.drop rem) 0 (sc.2 - rem) fault2
      else ra
    (persistent_ram_update_header_ecc rb.1, if rb.2 = 0 then (count : Int) else rb.2)
  else
    let ra := persistent_ram_update_user p.2 sc.1 p.1 sc.2 fault1
    (persistent_ram_update_header_ecc ra.1, if ra.2 = 0 then (count : Int) else ra.2)

def prSlice (d : List Nat) (i n : Nat) : List Nat := (d.drop i).take n

/- the logical (unwrapped) contents of a zone, exactly as
   persistent_ram_save_old copies them: size - start bytes from offset
   start, then start bytes from offset 0. -/
def logicalContent (z : PRZ) : List Nat :=
  prSlice z.data z.start (z.size - z.start) ++ prSlice z.data 0 z.start

/- persistent_ram_save_old: nothing to do on an empty zone; otherwise the
   ECC pass and the allocation happen only when no snapshot buffer exists
   yet (both are state-preserving here: the model carries no bit errors
   and allocation is assumed to succeed), and the live contents and size
   are copied into the snapshot fields unconditionally. -/
def persistent_ram_save_old (z : PRZ) : PRZ :=
  if z.size = 0 then z
  else { z with old_log := some (logicalContent z), old_log_size := z.size }

def persistent_ram_old (z : PRZ) : Option (List Nat) := z.old_log

def persistent_ram_old_size (z : PRZ) : Nat := z.old_log_size

def persistent_ram_free_old (z : PRZ) : PRZ :=
  { z with old_log := none, old_log_size := 0 }

/- persistent_ram_zap: reset both cursors and recompute the header parity. -/
def persistent_ram_zap (z : PRZ) : PRZ :=
  persistent_ram_update_header_ecc { z with start := 0, size := 0 }

/- well-formedness of a zone as established by persistent_ram_post_init
   and preserved by the operations: the data area has the declared length,
   the start cursor has wrapped, the size cursor has saturated, and before
   the buffer fills the stored bytes begin at offset 0 (start = size). -/
abbrev WF (z : PRZ) : Prop :=
  0 < z.buffer_size ∧ z.data.length = z.buffer_size ∧ z.start < z.buffer_size ∧
    z.size ≤ z.buffer_size ∧ (z.size < z.buffer_size → z.start = z.size)

/- the trailing n bytes of a list. -/
def lastN (n : Nat) (l : List Nat) : List Nat := l.drop (l.length - n)

/- ---------------------------------------------------------------------
   ECC initialisation arithmetic (persistent_ram_init_ecc) and
   persistent_ram_post_init, fs/pstore/ram_core.c.
   --------------------------------------------------------------------- -/

def PERSISTENT_RAM_SIG : Nat := 0x43474244

structure persistent_ram_ecc_info where
  block_size : Nat
  ecc_size : Nat
deriving DecidableEq

def DIV_ROUND_UP (n d : Nat) : Nat := (n + d - 1) / d

/- persistent_ram_init_ecc: on success returns the usable buffer size that
   remains after the parity areas are carved off the end; fails with
   -EINVAL (= -22) when the parity would consume the entire usable area.
   The Reed-Solomon codec setup and the workspace allocation are assumed
   to succeed.  EINVAL = 22. -/
def persistent_ram_init_ecc (buffer_size : Nat)
    (ecc_info : persistent_ram_ecc_info) : Except Int Nat :=
  if ecc_info.ecc_size = 0 then Except.ok buffer_size
  else
    let block_size := if ecc_info.block_size = 0 then 128 else ecc_info.block_size
    let ecc_size := if ecc_info.ecc_size = 0 then 16 else ecc_info.ecc_size
    let ecc_blocks := DIV_ROUND_UP (buffer_size - ecc_size) (block_size + ecc_size)
    let ecc_total := (ecc_blocks + 1) * ecc_size
    if buffer_size ≤ ecc_total then Except.error (-22)
    else Except.ok (buffer_size - ecc_total)

structure PostInitResult where
  usable : Nat
  zapped : Bool
  saved_old : Bool
deriving DecidableEq

/- persistent_ram_post_init: initialise ECC (propagating its failure),
   then check the signature and cursors found in memory, saving the old
   contents when they are valid and zapping the zone when it is missing,
   invalid or flagged single-use. -/
def persistent_ram_post_init (buffer_size found_sig found_start found_size : Nat)
    (sig : Nat) (zap_old : Bool) (ecc_info : persistent_ram_ecc_info) :
    Except Int PostInitResult :=
  match persistent_ram_init_ecc buffer_size ecc_info with
  | Except.error e => Except.error e
  | Except.ok usable =>
    let sig := Nat.xor sig PERSISTENT_RAM_SIG
    if found_sig = sig then
      if found_size = 0 then Except.ok ⟨usable, false, false⟩
      else if usable < found_size ∨ found_size < found_start then
        Except.ok ⟨usable, true, false⟩
      else Except.ok ⟨usable, zap_old, true⟩
    else Except.ok ⟨usable, true, false⟩

/- sizeof(struct persistent_ram_buffer): sig, start and size, 4 bytes each. -/
def persistent_ram_buffer_header_bytes : Nat := 12

/- persistent_ram_new up to the point where post-init decides the fate of
   the zone: the mapping step sets buffer_size to the region size minus
   the header, and any post-init error frees the zone and is returned. -/
def persistent_ram_new_status (size found_sig found_start found_size sig : Nat)
    (zap_old : Bool) (ecc_info : persistent_ram_ecc_info) :
    Except Int PostInitResult :=
  persistent_ram_post_init (size - persistent_ram_buffer_header_bytes)
    found_sig found_start found_size sig zap_old ecc_info

/- ---------------------------------------------------------------------
   Zone carver (ramoops_init_przs / ramoops_init_prz), fs/pstore/ram.c.
   Zones are represented by their (physical address, size) extents;
   persistent_ram_new is assumed to succeed so that the carving geometry
   is what the claims are about.  ENOMEM = 12. -/

def ramoops_carve (phys_addr region_size paddr mem_sz cnt : Nat) :
    Except Int (List (Nat × Nat) × Nat × Nat) :=
  if region_size < paddr + mem_sz - phys_addr then Except.error (-12)
  else
    let zone_sz := mem_sz / cnt
    if zone_sz = 0 then Except.error (-12)
    else
      Except.ok ((List.range cnt).map (fun i => (paddr + i * zone_sz, zone_sz)),
        paddr + cnt * zone_sz, cnt)

/- ramoops_init_przs: a zero mem_sz or record_size disables the category;
   a negative record_size derives the per-unit size from mem_sz / cnt,
   a positive one derives cnt from mem_sz / record_size; then the region
   bound is checked and cnt zones of zone_sz = mem_sz / cnt bytes are
   carved at consecutive addresses, advancing the address cursor. -/
def ramoops_init_przs (phys_addr region_size paddr mem_sz : Nat)
    (record_size : Int) (cnt : Nat) :
    Except Int (List (Nat × Nat) × Nat × Nat) :=
  if mem_sz = 0 ∨ record_size = 0 then Except.ok ([], paddr, 0)
  else if record_size < 0 then
    if cnt = 0 then Except.ok ([], paddr, 0)
    else if mem_sz / cnt = 0 then Except.error (-12)
    else ramoops_carve phys_addr region_size paddr mem_sz cnt
  else
    if mem_sz / record_size.toNat = 0 then Except.error (-12)
    else ramoops_carve phys_addr region_size paddr mem_sz (mem_sz / record_size.toNat)

/- ramoops_init_prz: a single zone of sz bytes at the address cursor,
   after the same region bound check. -/
def ramoops_init_prz (phys_addr region_size paddr sz : Nat) :
    Except Int (Option (Nat × Nat) × Nat) :=
  if sz = 0 then Except.ok (none, paddr)
  else if region_size < paddr + sz - phys_addr then Except.error (-12)
  else Except.ok (some (paddr, sz), paddr + sz)

/- ---------------------------------------------------------------------
   ramoops backend write entry point (ramoops_pstore_write and
   ramoops_write_kmsg_hdr), fs/pstore/ram.c.
   EINVAL = 22, ENOSPC = 28, ENOMEM = 12. -/

inductive PstoreType where
  | DMESG
  | CONSOLE
  | FTRACE
  | PMSG
  | other
deriving DecidableEq

structure PstoreRecord where
  type : PstoreType
  part : Nat
  buf : List Nat
  compressed : Bool
  tv_sec : Nat
  tv_nsec : Nat
deriving DecidableEq

structure RamoopsContext where
  dprzs : Option (List PRZ)
  cprz : Option PRZ
  fprzs : Option (List PRZ)
  mprz : Option PRZ
  dump_write_cnt : Nat
  max_dump_cnt : Nat
  ftrace_per_cpu : Bool
deriving DecidableEq

/- decimal digits of n as ASCII bytes. -/
def natDigs (n : Nat) : List Nat := (Nat.toDigits 10 n).map Char.toNat

/- zero-pad a digit string on the left to 6 characters, as %06lu does. -/
def pad6 (l : List Nat) : List Nat := List.replicate (6 - l.length) 48 ++ l

/- the kmsg header text of ramoops_write_kmsg_hdr:
   RAMOOPS_KERNMSG_HDR sec . usec6 - C-or-D newline, all as ASCII bytes. -/
def ramoops_kmsg_hdr (r : PstoreRecord) : List Nat :=
  [61, 61, 61, 61] ++ natDigs r.tv_sec ++ [46] ++ pad6 (natDigs (r.tv_nsec / 1000)) ++
    [45, if r.compressed then 67 else 68, 10]

/- ramoops_write_kmsg_hdr: write the header into the zone and return the
   header length. -/
def ramoops_write_kmsg_hdr (prz : PRZ) (r : PstoreRecord) : PRZ × Nat :=
  let hdr := ramoops_kmsg_hdr r
  (persistent_ram_write prz hdr, hdr.length)

/- ramoops_pstore_write: dispatch on the record type; a DMESG record whose
   part is not 1 is refused with -ENOSPC before any zone is touched;
   otherwise the current dump zone is zapped, the kmsg header and the
   (possibly truncated) payload are appended, and the round-robin dump
   counter advances.  The cpu argument stands for smp_processor_id(). -/
def ramoops_pstore_write (cxt : RamoopsContext) (r : PstoreRecord) (cpu : Nat) :
    RamoopsContext × Int :=
  if r.type = PstoreType.CONSOLE then
    match cxt.cprz with
    | none => (cxt, -12)
    | some p => ({ cxt with cprz := some (persistent_ram_write p r.buf) }, 0)
  else if r.type = PstoreType.FTRACE then
    match cxt.fprzs with
    | none => (cxt, -12)
    | some zs =>
      let zonenum := if cxt.ftrace_per_cpu then cpu else 0
      let zs := zs.set zonenum (persistent_ram_write (zs.getD zonenum przDefault) r.buf)
      ({ cxt with fprzs := some zs }, 0)
  else if r.type = PstoreType.PMSG then (cxt, -22)
  else if r.type ≠ PstoreType.DMESG then (cxt, -22)
  else if r.part ≠ 1 then (cxt, -28)
  else
    match cxt.dprzs with
    | none => (cxt, -28)
    | some ds =>
      let prz := ds.getD cxt.dump_write_cnt przDefault
      let prz := persistent_ram_zap prz
      let ph := ramoops_write_kmsg_hdr prz r
      if ph.2 = 0 then
        ({ cxt with dprzs := some (ds.set cxt.dump_write_cnt ph.1) }, -12)
      else
        let sz := if ph.1.buffer_size < r.buf.length + ph.2
          then ph.1.buffer_size - ph.2 else r.buf.length
        let prz := persistent_ram_write ph.1 (r.buf.take sz)
        let ds := ds.set cxt.dump_write_cnt prz
        let wc := (cxt.dump_write_cnt + 1) % cxt.max_dump_cnt
        ({ cxt with dprzs := some ds, dump_write_cnt := wc }, 0)

/- ---------------------------------------------------------------------
   Backend registry (pstore_register), fs/pstore/platform.c.
   Backend names are modelled as numeric identifiers.
   EPERM = 1, EINVAL = 22, EBUSY = 16. -/

structure PstoreInfo where
  name : Nat
  flags : Nat
  has_read : Bool
  has_write : Bool
  has_write_user : Bool
deriving DecidableEq

structure PstoreGlobal where
  backend : Option Nat
  psinfo : Option PstoreInfo
deriving DecidableEq

/- the checks of pstore_register after the preferred-backend name filter:
   flags, required operations, single active backend, then installation
   (with the write_user compatibility fallback) and publication of the
   backend name. -/
def pstore_register_checks (st : PstoreGlobal) (psi : PstoreInfo) :
    PstoreGlobal × Int :=
  if psi.flags = 0 then (st, -22)
  else if !psi.has_read || !psi.has_write then (st, -22)
  else
    match st.psinfo with
    | some _ => (st, -16)
    | none =>
      let psi := if psi.has_write_user then psi else { psi with has_write_user := true }
      ({ backend := some psi.name, psinfo := some psi }, 0)

/- pstore_register: a backend whose name differs from the published or
   preferred backend name is refused with -EPERM before anything else. -/
def pstore_register (st : PstoreGlobal) (psi : PstoreInfo) : PstoreGlobal × Int :=
  match st.backend with
  | some b => if b ≠ psi.name then (st, -1) else pstore_register_checks st psi
  | none => pstore_register_checks st psi

/- ---------------------------------------------------------------------
   Crash-path capture (pstore_dump / pstore_cannot_block_path),
   fs/pstore/platform.c. -/

inductive KmsgDumpReason where
  | undef
  | panic
  | oops
  | emerg
  | shutdown
deriving DecidableEq

/- pstore_cannot_block_path: blocking is forbidden in NMI context
   regardless of reason, and for the panic and emergency-restart reasons. -/
def pstore_cannot_block_path (in_nmi : Bool) (reason : KmsgDumpReason) : Bool :=
  if in_nmi then true
  else
    match reason with
    | KmsgDumpReason.panic => true
    | KmsgDumpReason.emerg => true
    | _ => false

/- kmsg_dump_reason_str rendered as ASCII bytes. -/
def kmsg_dump_reason_str : KmsgDumpReason → List Nat
  | KmsgDumpReason.undef => [85, 110, 107, 110, 111, 119, 110]
  | KmsgDumpReason.panic => [80, 97, 110, 105, 99]
  | KmsgDumpReason.oops => [79, 111, 112, 115]
  | KmsgDumpReason.emerg => [69, 109, 101, 114, 103, 101, 110, 99, 121]
  | KmsgDumpReason.shutdown => [83, 104, 117, 116, 100, 111, 119, 110]

/- the record header text of pstore_dump: reason, a hash sign, the crash
   counter, the word Part and the 1-based part number, then a newline. -/
def pstore_dump_header (why : List Nat) (oopscount part : Nat) : List Nat :=
  why ++ [35] ++ natDigs oopscount ++ [32, 80, 97, 114, 116] ++ natDigs part ++ [10]

structure DumpRecord where
  part : Nat
  payload : List Nat
deriving DecidableEq

/- the capture loop of pstore_dump once the lock is held: as long as the
   byte budget is not exhausted, pull the next chunk of the kernel log,
   prefix it with the header and hand it to the backend, incrementing the
   part number.  The compression branch is not taken (no big_oops_buf),
   so each record is the verbatim header plus the chunk bounded by the
   backend buffer size. -/
def pstore_dump_loop (why : List Nat) (oopscount bufsize kmsg_bytes : Nat) :
    List (List Nat) → Nat → Nat → List DumpRecord
  | [], _, _ => []
  | chunk :: rest, total, part =>
    if total < kmsg_bytes then
      let hdr := pstore_dump_header why oopscount part
      let dump := chunk.take (bufsize - hdr.length)
      ⟨part, hdr ++ dump⟩ ::
        pstore_dump_loop why oopscount bufsize kmsg_bytes rest
          (total + (hdr.length + dump.length)) (part + 1)
    else []

structure DumpOutcome where
  used_trylock : Bool
  locked : Bool
  skipped : Bool
  records : List DumpRecord
deriving DecidableEq

/- pstore_dump: in a context that forbids blocking the buffer lock is only
   tried, and on failure the capture of this event is abandoned with a
   log message and nothing written; otherwise the lock is taken
   unconditionally, the crash counter is incremented and the capture loop
   runs from part 1 with a zero byte total. -/
def pstore_dump (in_nmi : Bool) (reason : KmsgDumpReason) (lock_free : Bool)
    (bufsize kmsg_bytes oopscount : Nat) (chunks : List (List Nat)) : DumpOutcome :=
  let why := kmsg_dump_reason_str reason
  if pstore_cannot_block_path in_nmi reason then
    if lock_free then
      ⟨true, true, false, pstore_dump_loop why (oopscount + 1) bufsize kmsg_bytes chunks 0 1⟩
    else ⟨true, false, true, []⟩
  else
    ⟨false, true, false, pstore_dump_loop why (oopscount + 1) bufsize kmsg_bytes chunks 0 1⟩

/- ---------------------------------------------------------------------
   Concrete fixtures used by the witnesses and counterexamples. -/

def przC1 : PRZ := ⟨4, 0, 0, [0, 0, 0, 0], none, 0⟩

def przC2 : PRZ := ⟨64, 0, 0, List.replicate 64 0, none, 0⟩

def inputC2 : List Nat := List.range 100

def przC4 : PRZ := ⟨4, 2, 2, [1, 2, 3, 4], none, 0⟩

def stC8 : PstoreGlobal := ⟨some 1, some ⟨1, 1, true, true, true⟩⟩

def psiC8 : PstoreInfo := ⟨2, 1, true, true, false⟩

/- =====================================================================
   Theorems.
   ===================================================================== -/

theorem bufferWrapGo_eq_mod (bs : Nat) (hbs : 0 < bs) :
    ∀ fuel n, n ≤ fuel → bufferWrapGo bs fuel n = n % bs := by
  intro fuel
  induction fuel with
  | zero =>
    intro n hn
    have hn0 : n = 0 := Nat.le_zero.mp hn
    subst hn0
    simp [bufferWrapGo]
  | succ f ih =>
    intro n hn
    rw [bufferWrapGo]
    by_cases h : 0 < bs ∧ bs ≤ n
    · rw [if_pos h, ih (n - bs) (by omega), Nat.mod_eq_sub_mod h.2]
    · rw [if_neg h, Nat.mod_eq_of_lt (by omega)]

theorem bufferWrap_eq_mod (bs n : Nat) (hbs : 0 < bs) : bufferWrap bs n = n % bs :=
  bufferWrapGo_eq_mod bs hbs n n (Nat.le_refl n)

theorem take_append_left {l₁ l₂ : List Nat} {n : Nat} (h : n ≤ l₁.length) :
    (l₁ ++ l₂).take n = l₁.take n := by
  rw [List.take_append_eq_append_take, Nat.sub_eq_zero_of_le h, List.take_zero,
    List.append_nil]

theorem take_append_right {l₁ l₂ : List Nat} {n : Nat} (h : l₁.length ≤ n) :
    (l₁ ++ l₂).take n = l₁ ++ l₂.take (n - l₁.length) := by
  rw [List.take_append_eq_append_take, List.take_of_length_le h]

theorem drop_append_left {l₁ l₂ : List Nat} {n : Nat} (h : n ≤ l₁.length) :
    (l₁ ++ l₂).drop n = l₁.drop n ++ l₂ := by
  rw [List.drop_append_eq_append_drop, Nat.sub_eq_zero_of_le h, List.drop_zero]

theorem drop_append_right {l₁ l₂ : List Nat} {n : Nat} (h : l₁.length ≤ n) :
    (l₁ ++ l₂).drop n = l₂.drop (n - l₁.length) := by
  rw [List.drop_append_eq_append_drop, List.drop_of_length_le h, List.nil_append]

theorem lastN_of_le {l : List Nat} {n : Nat} (h : l.length ≤ n) : lastN n l = l := by
  rw [lastN, Nat.sub_eq_zero_of_le h, List.drop_zero]

theorem length_lastN (n : Nat) (l : List Nat) :
    (lastN n l).length = min n l.length := by
  rw [lastN, List.length_drop]
  omega

theorem lastN_append_right {l₁ l₂ : List Nat} {n : Nat} (h : n ≤ l₂.length) :
    lastN n (l₁ ++ l₂) = lastN n l₂ := by
  rw [lastN, lastN, List.length_append,
    drop_append_right (by omega : l₁.length ≤ l₁.length + l₂.length - n)]
  congr 1
  omega

theorem lastN_lastN_append (n : Nat) (a b : List Nat) :
    lastN n (lastN n a ++ b) = lastN n (a ++ b) := by
  by_cases ha : a.length ≤ n
  · rw [lastN_of_le ha]
  · by_cases hb : n ≤ b.length
    · rw [lastN_append_right hb, lastN_append_right hb]
    · have h1 : a.length - (a.length - n) + b.length - n = b.length := by omega
      simp only [lastN, List.length_append, List.length_drop, h1]
      rw [drop_append_left (by rw [List.length_drop]; omega), List.drop_drop,
        drop_append_left (by omega : a.length + b.length - n ≤ a.length)]
      have h2 : a.length - n + b.length = a.length + b.length - n := by omega
      rw [h2]

theorem lastN_append_lastN (n : Nat) (a b : List Nat) :
    lastN n (a ++ lastN n b) = lastN n (a ++ b) := by
  by_cases hb : b.length ≤ n
  · rw [lastN_of_le hb]
  · have hlb : (lastN n b).length = n := by rw [length_lastN]; omega
    rw [lastN_append_right (by omega : n ≤ (lastN n b).length),
      lastN_append_right (by omega : n ≤ b.length), lastN_of_le (by omega)]

theorem persistent_ram_write_truncate (z : PRZ) (s : List Nat) :
    persistent_ram_write z s = persistent_ram_write z (lastN z.buffer_size s) := by
  by_cases h : z.buffer_size < s.length
  · have hlen : (s.drop (s.length - z.buffer_size)).length = z.buffer_size := by
      rw [List.length_drop]; omega
    simp only [persistent_ram_write, lastN, hlen, if_pos h, if_neg (lt_irrefl z.buffer_size)]
  · rw [lastN_of_le (by omega)]

theorem content_of_wrap (d x : List Nat) (bs s0 : Nat) (hd : d.length = bs)
    (hs0 : s0 < bs) (hx : x.length ≤ bs) (hw : bs - s0 < x.length) :
    prSlice (listWrite (listWrite d s0 (x.take (bs - s0))) 0
        ((x.drop (bs - s0)).take (x.length - (bs - s0))))
      ((s0 + x.length) % bs) (bs - (s0 + x.length) % bs) ++
    prSlice (listWrite (listWrite d s0 (x.take (bs - s0))) 0
        ((x.drop (bs - s0)).take (x.length - (bs - s0))))
      0 ((s0 + x.length) % bs)
    = (d.take s0).drop (x.length - (bs - s0)) ++ x := by
  have hts0 : (d.take s0).length = s0 := by rw [List.length_take]; omega
  have hrem : (x.take (bs - s0)).length = bs - s0 := by rw [List.length_take]; omega
  have hyk : (x.drop (bs - s0)).length = x.length - (bs - s0) := List.length_drop _ _
  have hm : (s0 + x.length) % bs = x.length - (bs - s0) := by
    rw [Nat.mod_eq_sub_mod (by omega), Nat.mod_eq_of_lt (by omega)]
    omega
  have hD1 : listWrite d s0 (x.take (bs - s0)) = d.take s0 ++ x.take (bs - s0) := by
    rw [listWrite, hrem, (by omega : s0 + (bs - s0) = bs),
      List.drop_of_length_le (by omega), List.append_nil]
  have hy : (x.drop (bs - s0)).take (x.length - (bs - s0)) = x.drop (bs - s0) :=
    List.take_of_length_le (le_of_eq hyk)
  have hD1len : (d.take s0 ++ x.take (bs - s0)).length = bs := by
    rw [List.length_append, hts0, hrem]; omega
  have hD : listWrite (d.take s0 ++ x.take (bs - s0)) 0 (x.drop (bs - s0)) =
      x.drop (bs - s0) ++ (d.take s0 ++ x.take (bs - s0)).drop (x.length - (bs - s0)) := by
    rw [listWrite, List.take_zero, List.nil_append, Nat.zero_add, hyk]
  rw [hD1, hy, hD, hm]
  have hBlen : ((d.take s0 ++ x.take (bs - s0)).drop (x.length - (bs - s0))).length
      = bs - (x.length - (bs - s0)) := by rw [List.length_drop, hD1len]
  rw [prSlice, prSlice, List.drop_zero]
  rw [drop_append_right (by omega)]
  rw [(by omega : x.length - (bs - s0) - (x.drop (bs - s0)).length = 0), List.drop_zero]
  rw [List.take_of_length_le (le_of_eq hBlen)]
  rw [take_append_left (by omega)]
  rw [List.take_of_length_le (le_of_eq hyk)]
  rw [drop_append_left (by omega)]
  rw [List.append_assoc, List.take_append_drop]

theorem data_length_of_wrap (d x : List Nat) (bs s0 : Nat) (hd : d.length = bs)
    (hs0 : s0 < bs) (hx : x.length ≤ bs) (hw : bs - s0 < x.length) :
    (listWrite (listWrite d s0 (x.take (bs - s0))) 0
        ((x.drop (bs - s0)).take (x.length - (bs - s0)))).length = bs := by
  simp only [listWrite, List.length_append, List.length_take, List.length_drop]
  omega

theorem lastN_full_wrap (d x : List Nat) (bs s0 : Nat) (hd : d.length = bs)
    (hs0 : s0 < bs) (hx : x.length ≤ bs) (hw : bs - s0 ≤ x.length) :
    lastN bs ((prSlice d s0 (bs - s0) ++ prSlice d 0 s0) ++ x)
      = (d.take s0).drop (x.length - (bs - s0)) ++ x := by
  have hts0 : (d.take s0).length = s0 := by rw [List.length_take]; omega
  have hds0 : (d.drop s0).length = bs - s0 := by rw [List.length_drop, hd]
  rw [prSlice, prSlice, List.drop_zero, List.take_of_length_le (le_of_eq hds0)]
  rw [List.append_assoc, lastN]
  rw [(by rw [List.length_append, List.length_append, hds0, hts0]; omega :
    (d.drop s0 ++ (d.take s0 ++ x)).length - bs = x.length)]
  rw [drop_append_right (by omega)]
  rw [drop_append_left (by omega)]
  rw [hds0]

theorem lastN_notfull_wrap (d x : List Nat) (bs σ : Nat) (hd : d.length = bs)
    (hσ : σ < bs) (hx : x.length ≤ bs) (hw : bs - σ < x.length) :
    lastN bs ((prSlice d σ (σ - σ) ++ prSlice d 0 σ) ++ x)
      = (d.take σ).drop (x.length - (bs - σ)) ++ x := by
  have hts : (d.take σ).length = σ := by rw [List.length_take]; omega
  rw [prSlice, prSlice, List.drop_zero, Nat.sub_self, List.take_zero, List.nil_append]
  rw [lastN]
  rw [(by rw [List.length_append, hts]; omega :
    (d.take σ ++ x).length - bs = x.length - (bs - σ))]
  rw [drop_append_left (by omega)]

theorem write_small (bs s0 σ : Nat) (d : List Nat) (ol : Option (List Nat)) (ols : Nat)
    (x : List Nat) (hbs : 0 < bs) (hd : d.length = bs) (hstart : s0 < bs)
    (hsize : σ ≤ bs) (hsw : σ < bs → s0 = σ) (hx : x.length ≤ bs) :
    logicalContent (persistent_ram_write ⟨bs, s0, σ, d, ol, ols⟩ x) =
      lastN bs (logicalContent ⟨bs, s0, σ, d, ol, ols⟩ ++ x) ∧
    WF (persistent_ram_write ⟨bs, s0, σ, d, ol, ols⟩ x) := by
  have hnlt : ¬ bs < x.length := by omega
  simp only [persistent_ram_write, if_neg hnlt]
  by_cases hfull : σ = bs
  · subst hfull
    have e1 : buffer_size_add ⟨σ, s0, σ, d, ol, ols⟩ x.length = ⟨σ, s0, σ, d, ol, ols⟩ := by
      simp [buffer_size_add]
    rw [e1]
    simp only [buffer_start_add, persistent_ram_update, persistent_ram_update_header_ecc]
    rw [bufferWrap_eq_mod _ _ hbs]
    by_cases hwrap : σ - s0 < x.length
    · rw [if_pos hwrap]
      constructor
      · simp only [logicalContent]
        rw [content_of_wrap d x σ s0 hd hstart hx hwrap]
        rw [lastN_full_wrap d x σ s0 hd hstart hx (le_of_lt hwrap)]
      · exact ⟨hbs, data_length_of_wrap d x σ s0 hd hstart hx hwrap, Nat.mod_lt _ hbs,
          le_refl σ, fun h => absurd h (lt_irrefl σ)⟩
    · rw [if_neg hwrap]
      rw [List.take_length]
      have hts0 : (d.take s0).length = s0 := by rw [List.length_take]; omega
      have hDlen : (listWrite d s0 x).length = σ := by
        simp only [listWrite, List.length_append, List.length_take, List.length_drop]
        omega
      constructor
      · simp only [logicalContent]
        by_cases hexact : s0 + x.length = σ
        · rw [lastN_full_wrap d x σ s0 hd hstart hx (by omega)]
          rw [(by omega : x.length - (σ - s0) = 0), List.drop_zero]
          rw [hexact, Nat.mod_self]
          simp only [prSlice, listWrite, hexact, List.drop_zero, List.take_zero,
            Nat.sub_zero, List.append_nil]
          rw [List.drop_of_length_le (le_of_eq hd), List.append_nil]
          rw [List.take_of_length_le (by rw [List.length_append, hts0] <;> omega)]
        · have hmid : s0 + x.length < σ := by omega
          rw [Nat.mod_eq_of_lt hmid]
          simp only [prSlice, listWrite, List.drop_zero]
          rw [drop_append_right (by rw [List.length_append, hts0] <;> omega)]
          rw [(by rw [List.length_append, hts0]; omega :
            s0 + x.length - (d.take s0 ++ x).length = 0), List.drop_zero]
          rw [List.take_of_length_le (by rw [List.length_drop, hd] <;> omega)]
          rw [take_append_left (by rw [List.length_append, hts0] <;> omega)]
          rw [List.take_of_length_le (by rw [List.length_append, hts0] <;> omega)]
          have hds0 : (d.drop s0).length = σ - s0 := by rw [List.length_drop, hd]
          rw [List.take_of_length_le (le_of_eq hds0)]
          rw [List.append_assoc (d.drop s0) (d.take s0) x]
          rw [lastN]
          rw [(by rw [List.length_append, List.length_append, hds0, hts0]; omega :
            (d.drop s0 ++ (d.take s0 ++ x)).length - σ = x.length)]
          rw [drop_append_left (by omega)]
          rw [List.drop_drop]
      · exact ⟨hbs, hDlen, Nat.mod_lt _ hbs, le_refl σ, fun h => absurd h (lt_irrefl σ)⟩
  · have hlt : σ < bs := by omega
    have hs0 := hsw hlt
    subst hs0
    by_cases hov : bs < s0 + x.length
    · have e1 : buffer_size_add ⟨bs, s0, s0, d, ol, ols⟩ x.length = ⟨bs, s0, bs, d, ol, ols⟩ := by
        simp [buffer_size_add, if_neg hfull, if_pos hov]
      rw [e1]
      simp only [buffer_start_add, persistent_ram_update, persistent_ram_update_header_ecc]
      rw [bufferWrap_eq_mod _ _ hbs]
      rw [if_pos (by omega : bs - s0 < x.length)]
      constructor
      · simp only [logicalContent]
        rw [content_of_wrap d x bs s0 hd hlt hx (by omega)]
        rw [lastN_notfull_wrap d x bs s0 hd hlt hx (by omega)]
      · exact ⟨hbs, data_length_of_wrap d x bs s0 hd hlt hx (by omega), Nat.mod_lt _ hbs,
          le_refl bs, fun h => absurd h (lt_irrefl bs)⟩
    · have e1 : buffer_size_add ⟨bs, s0, s0, d, ol, ols⟩ x.length
          = ⟨bs, s0, s0 + x.length, d, ol, ols⟩ := by
        simp [buffer_size_add, if_neg hfull, if_neg hov]
      rw [e1]
      simp only [buffer_start_add, persistent_ram_update, persistent_ram_update_header_ecc]
      rw [bufferWrap_eq_mod _ _ hbs]
      rw [if_neg (by omega : ¬ bs - s0 < x.length)]
      rw [List.take_length]
      have hts : (d.take s0).length = s0 := by rw [List.length_take]; omega
      have hDlen : (listWrite d s0 x).length = bs := by
        simp only [listWrite, List.length_append, List.length_take, List.length_drop]
        omega
      constructor
      · simp only [logicalContent]
        by_cases hexact : s0 + x.length = bs
        · rw [hexact, Nat.mod_self]
          simp only [prSlice, listWrite, hexact, List.drop_zero, List.take_zero,
            Nat.sub_zero, Nat.sub_self, List.append_nil, List.nil_append]
          rw [List.drop_of_length_le (le_of_eq hd), List.append_nil]
          rw [List.take_of_length_le (by rw [List.length_append, hts] <;> omega)]
          rw [lastN_of_le (by rw [List.length_append, hts] <;> omega)]
        · have hmid : s0 + x.length < bs := by omega
          rw [Nat.mod_eq_of_lt hmid]
          simp only [prSlice, listWrite, List.drop_zero, Nat.sub_self, List.take_zero,
            List.nil_append]
          rw [take_append_left (by rw [List.length_append, hts] <;> omega)]
          rw [List.take_of_length_le (by rw [List.length_append, hts] <;> omega)]
          rw [lastN_of_le (by rw [List.length_append, hts] <;> omega)]
      · refine ⟨hbs, hDlen, Nat.mod_lt _ hbs, (show s0 + x.length ≤ bs by omega), ?_⟩
        intro h
        exact Nat.mod_eq_of_lt h

theorem write_buffer_size (z : PRZ) (x : List Nat) :
    (persistent_ram_write z x).buffer_size = z.buffer_size := by
  simp only [persistent_ram_write, buffer_size_add, buffer_start_add,
    persistent_ram_update, persistent_ram_update_header_ecc]
  split_ifs <;> rfl

theorem logicalContent_length_le (z : PRZ) (h : WF z) :
    (logicalContent z).length ≤ z.buffer_size := by
  obtain ⟨hbs, hd, hstart, hsize, hsw⟩ := h
  simp only [logicalContent, prSlice, List.length_append, List.length_take,
    List.length_drop, List.drop_zero]
  omega

theorem write_content_WF (z : PRZ) (x : List Nat) (h : WF z) :
    logicalContent (persistent_ram_write z x) =
      lastN z.buffer_size (logicalContent z ++ x) ∧
    WF (persistent_ram_write z x) ∧
    (persistent_ram_write z x).buffer_size = z.buffer_size := by
  refine ⟨?_, ?_, write_buffer_size z x⟩ <;>
  · obtain ⟨hbs, hd, hstart, hsize, hsw⟩ := h
    rw [persistent_ram_write_truncate]
    obtain ⟨bs, s0, σ, d, ol, ols⟩ := z
    dsimp only at *
    have hx : (lastN bs x).length ≤ bs := by rw [length_lastN]; omega
    have main := write_small bs s0 σ d ol ols (lastN bs x) hbs hd hstart hsize hsw hx
    first
    | (rw [main.1]; exact lastN_append_lastN bs (logicalContent ⟨bs, s0, σ, d, ol, ols⟩) x)
    | exact main.2

theorem foldl_write_content (cs : List (List Nat)) :
    ∀ z : PRZ, WF z →
      logicalContent (List.foldl persistent_ram_write z cs) =
        lastN z.buffer_size (logicalContent z ++ cs.flatten) ∧
      WF (List.foldl persistent_ram_write z cs) ∧
      (List.foldl persistent_ram_write z cs).buffer_size = z.buffer_size := by
  induction cs with
  | nil =>
    intro z h
    refine ⟨?_, h, rfl⟩
    rw [List.flatten_nil, List.append_nil, lastN_of_le (logicalContent_length_le z h)]
    rfl
  | cons c cs ih =>
    intro z h
    have step := write_content_WF z c h
    have rest := ih (persistent_ram_write z c) step.2.1
    rw [List.foldl_cons]
    refine ⟨?_, rest.2.1, by rw [rest.2.2, step.2.2]⟩
    calc logicalContent (List.foldl persistent_ram_write (persistent_ram_write z c) cs)
        = lastN (persistent_ram_write z c).buffer_size
            (logicalContent (persistent_ram_write z c) ++ cs.flatten) := rest.1
      _ = lastN z.buffer_size
            (lastN z.buffer_size (logicalContent z ++ c) ++ cs.flatten) := by
          rw [step.2.2, step.1]
      _ = lastN z.buffer_size ((logicalContent z ++ c) ++ cs.flatten) :=
          lastN_lastN_append _ _ _
      _ = lastN z.buffer_size (logicalContent z ++ (c :: cs).flatten) := by
          rw [List.append_assoc, List.flatten_cons]

/-- C1: wraparound chunking-invariance of append.  For every well-formed
zone and every sequence of appends through persistent_ram_write whose
total length exceeds the usable buffer size, the final logical
(unwrapped) content of the zone equals the last buffer_size bytes of the
concatenation of all appended payloads, independent of how the input was
split into individual appends; and a single append longer than
buffer_size keeps only its trailing buffer_size bytes. -/
theorem C1_wraparound_chunking (z : PRZ) (h : WF z) :
    (∀ cs : List (List Nat), z.buffer_size < (List.flatten cs).length →
      logicalContent (List.foldl persistent_ram_write z cs) =
        (List.flatten cs).drop ((List.flatten cs).length - z.buffer_size)) ∧
    (∀ x : List Nat, z.buffer_size < x.length →
      logicalContent (persistent_ram_write z x) =
        x.drop (x.length - z.buffer_size)) := by
  constructor
  · intro cs hlen
    rw [(foldl_write_content cs z h).1, lastN_append_right (by omega), lastN]
  · intro x hlen
    rw [(write_content_WF z x h).1, lastN_append_right (by omega), lastN]

/-- witness for C1 at a concrete zone of usable size 4 and two appends
totalling 6 bytes. -/
theorem C1_wraparound_chunking_witness :
    WF przC1 ∧
    logicalContent (List.foldl persistent_ram_write przC1 [[1, 2, 3], [4, 5, 6]])
      = [3, 4, 5, 6] := by
  refine ⟨by decide, ?_⟩
  have h := (C1_wraparound_chunking przC1 (by decide)).1 [[1, 2, 3], [4, 5, 6]] (by decide)
  rw [h]
  decide

/-- C2 counterexample: appending 100 bytes to an empty 64-byte-usable zone
with a single persistent_ram_write leaves start_offset 0, not 36: the
write truncates the payload to the trailing 64 bytes first, so the start
cursor advances by 64 and wraps back to 0. -/
theorem C2_counterexample :
    (persistent_ram_write przC2 inputC2).start = 0 ∧
    ¬ (persistent_ram_write przC2 inputC2).start = 36 := by
  constructor <;> decide

/-- C2 amended: appending 100 bytes to an empty zone whose usable size is
64 bytes retains exactly the last 64 bytes of the input, and afterwards
valid_length equals 64 and start_offset equals 0. -/
theorem C2_scenario :
    (persistent_ram_write przC2 inputC2).size = 64 ∧
    (persistent_ram_write przC2 inputC2).start = 0 ∧
    logicalContent (persistent_ram_write przC2 inputC2) = inputC2.drop 36 := by
  refine ⟨by decide, by decide, by decide⟩

theorem bufferWrap_lt (bs n : Nat) (hbs : 0 < bs) : bufferWrap bs n < bs := by
  rw [bufferWrap_eq_mod _ _ hbs]
  exact Nat.mod_lt _ hbs

theorem write_start_lt (z : PRZ) (x : List Nat) (hbs : 0 < z.buffer_size) :
    (persistent_ram_write z x).start < z.buffer_size := by
  simp only [persistent_ram_write, buffer_size_add, buffer_start_add,
    persistent_ram_update, persistent_ram_update_header_ecc]
  split_ifs <;> exact bufferWrap_lt _ _ hbs

theorem write_size_le (z : PRZ) (x : List Nat) :
    (persistent_ram_write z x).size ≤ z.buffer_size := by
  simp only [persistent_ram_write, buffer_size_add, buffer_start_add,
    persistent_ram_update, persistent_ram_update_header_ecc]
  split_ifs <;> dsimp only <;> omega

theorem buffer_size_add_buffer_size (z : PRZ) (a : Nat) :
    (buffer_size_add z a).buffer_size = z.buffer_size := by
  rw [buffer_size_add]
  split_ifs <;> rfl

theorem buffer_size_add_start (z : PRZ) (a : Nat) :
    (buffer_size_add z a).start = z.start := by
  rw [buffer_size_add]
  split_ifs <;> rfl

theorem buffer_size_add_size_le (z : PRZ) (a : Nat) :
    (buffer_size_add z a).size ≤ z.buffer_size := by
  rw [buffer_size_add]
  split_ifs <;> (try dsimp only) <;> omega

theorem persistent_ram_update_user_fst_buffer_size (w : PRZ) (s : List Nat)
    (st cc : Nat) (f : Bool) :
    (persistent_ram_update_user w s st cc f).1.buffer_size = w.buffer_size := by
  rw [persistent_ram_update_user]
  split_ifs <;> rfl

theorem persistent_ram_update_user_fst_start (w : PRZ) (s : List Nat)
    (st cc : Nat) (f : Bool) :
    (persistent_ram_update_user w s st cc f).1.start = w.start := by
  rw [persistent_ram_update_user]
  split_ifs <;> rfl

theorem persistent_ram_update_user_fst_size (w : PRZ) (s : List Nat)
    (st cc : Nat) (f : Bool) :
    (persistent_ram_update_user w s st cc f).1.size = w.size := by
  rw [persistent_ram_update_user]
  split_ifs <;> rfl

theorem write_user_cursor_facts (z : PRZ) (x : List Nat) (f1 f2 : Bool)
    (hbs : 0 < z.buffer_size) :
    (persistent_ram_write_user z x f1 f2).1.buffer_size = z.buffer_size ∧
    (persistent_ram_write_user z x f1 f2).1.start < z.buffer_size ∧
    (persistent_ram_write_user z x f1 f2).1.size ≤ z.buffer_size := by
  by_cases hbig : z.buffer_size < x.length
  · simp only [persistent_ram_write_user, if_pos hbig, buffer_start_add,
      persistent_ram_update_header_ecc]
    split_ifs <;> refine ⟨?_, ?_, ?_⟩ <;>
      (try simp only [persistent_ram_update_user_fst_buffer_size,
        persistent_ram_update_user_fst_start, persistent_ram_update_user_fst_size,
        buffer_size_add_buffer_size, buffer_size_add_start]) <;>
      first
        | rfl
        | exact bufferWrap_lt _ _ hbs
        | exact buffer_size_add_size_le z _
  · simp only [persistent_ram_write_user, if_neg hbig, buffer_start_add,
      persistent_ram_update_header_ecc]
    split_ifs <;> refine ⟨?_, ?_, ?_⟩ <;>
      (try simp only [persistent_ram_update_user_fst_buffer_size,
        persistent_ram_update_user_fst_start, persistent_ram_update_user_fst_size,
        buffer_size_add_buffer_size, buffer_size_add_start]) <;>
      first
        | rfl
        | exact bufferWrap_lt _ _ hbs
        | exact buffer_size_add_size_le z _

/-- C3: cursor invariants.  For every zone with positive usable size, each
of persistent_ram_write, persistent_ram_write_user and persistent_ram_zap
leaves start_offset strictly below the usable buffer size and
valid_length at most the usable buffer size (the size counter saturates,
the start cursor wraps modulo the usable size). -/
theorem C3_cursor_invariants (z : PRZ) (x : List Nat) (f1 f2 : Bool)
    (hbs : 0 < z.buffer_size) (hstart : z.start < z.buffer_size)
    (hsize : z.size ≤ z.buffer_size) :
    ((persistent_ram_write z x).start < (persistent_ram_write z x).buffer_size ∧
      (persistent_ram_write z x).size ≤ (persistent_ram_write z x).buffer_size) ∧
    ((persistent_ram_write_user z x f1 f2).1.start
        < (persistent_ram_write_user z x f1 f2).1.buffer_size ∧
      (persistent_ram_write_user z x f1 f2).1.size
        ≤ (persistent_ram_write_user z x f1 f2).1.buffer_size) ∧
    ((persistent_ram_zap z).start < (persistent_ram_zap z).buffer_size ∧
      (persistent_ram_zap z).size ≤ (persistent_ram_zap z).buffer_size) := by
  refine ⟨⟨?_, ?_⟩, ⟨?_, ?_⟩, ?_, ?_⟩
  · rw [write_buffer_size]
    exact write_start_lt z x hbs
  · rw [write_buffer_size]
    exact write_size_le z x
  · rw [(write_user_cursor_facts z x f1 f2 hbs).1]
    exact (write_user_cursor_facts z x f1 f2 hbs).2.1
  · rw [(write_user_cursor_facts z x f1 f2 hbs).1]
    exact (write_user_cursor_facts z x f1 f2 hbs).2.2
  · exact hbs
  · exact Nat.zero_le _

/-- witness for C3 at a concrete zone and payload. -/
theorem C3_cursor_invariants_witness :
    ((persistent_ram_write przC4 [9, 9, 9]).start
        < (persistent_ram_write przC4 [9, 9, 9]).buffer_size ∧
      (persistent_ram_write przC4 [9, 9, 9]).size
        ≤ (persistent_ram_write przC4 [9, 9, 9]).buffer_size) ∧
    ((persistent_ram_write_user przC4 [9, 9, 9] true false).1.start
        < (persistent_ram_write_user przC4 [9, 9, 9] true false).1.buffer_size ∧
      (persistent_ram_write_user przC4 [9, 9, 9] true false).1.size
        ≤ (persistent_ram_write_user przC4 [9, 9, 9] true false).1.buffer_size) ∧
    ((persistent_ram_zap przC4).start < (persistent_ram_zap przC4).buffer_size ∧
      (persistent_ram_zap przC4).size ≤ (persistent_ram_zap przC4).buffer_size) :=
  C3_cursor_invariants przC4 [9, 9, 9] true false (by decide) (by decide) (by decide)

/-- C4 counterexample: after a snapshot is taken and a further append
happens, a subsequent persistent_ram_save_old call is not a no-op: it
overwrites the snapshot contents (here from the 2 bytes 1, 2 to the 4
bytes 1, 2, 7, 8) and its recorded size, without any intervening
persistent_ram_free_old. -/
theorem C4_counterexample :
    persistent_ram_old (persistent_ram_save_old
        (persistent_ram_write (persistent_ram_save_old przC4) [7, 8]))
      = some [1, 2, 7, 8] ∧
    persistent_ram_old (persistent_ram_write (persistent_ram_save_old przC4) [7, 8])
      = some [1, 2] ∧
    persistent_ram_old_size (persistent_ram_save_old
        (persistent_ram_write (persistent_ram_save_old przC4) [7, 8])) = 4 ∧
    persistent_ram_old_size
        (persistent_ram_write (persistent_ram_save_old przC4) [7, 8]) = 2 := by
  refine ⟨by decide, by decide, by decide, by decide⟩

/-- C4 amended: persistent_ram_save_old is idempotent only for immediately
repeated calls (with the zone unchanged in between): applying it twice
equals applying it once.  A later call after intervening appends re-copies
the current live contents into the snapshot, overwriting it. -/
theorem C4_save_old_idempotent (z : PRZ) :
    persistent_ram_save_old (persistent_ram_save_old z) = persistent_ram_save_old z := by
  by_cases h : z.size = 0
  · simp [persistent_ram_save_old, h]
  · simp [persistent_ram_save_old, h, logicalContent]

/-- C5: idempotent reset.  On a zone holding no snapshot,
persistent_ram_zap followed by persistent_ram_save_old yields an empty
snapshot (no old data and old size 0, because save_old returns at once on
the emptied zone), and repeated persistent_ram_zap calls leave the zone
exactly as a single call does. -/
theorem C5_reset_idempotent :
    (∀ z : PRZ, persistent_ram_old z = none → persistent_ram_old_size z = 0 →
      persistent_ram_old (persistent_ram_save_old (persistent_ram_zap z)) = none ∧
      persistent_ram_old_size (persistent_ram_save_old (persistent_ram_zap z)) = 0) ∧
    (∀ z : PRZ, persistent_ram_zap (persistent_ram_zap z) = persistent_ram_zap z) := by
  constructor
  · intro z h1 h2
    constructor
    · simpa [persistent_ram_zap, persistent_ram_update_header_ecc,
        persistent_ram_save_old, persistent_ram_old] using h1
    · simpa [persistent_ram_zap, persistent_ram_update_header_ecc,
        persistent_ram_save_old, persistent_ram_old_size] using h2
  · intro z
    rfl

/-- witness for C5 at a concrete snapshot-free zone. -/
theorem C5_reset_idempotent_witness :
    persistent_ram_old (persistent_ram_save_old (persistent_ram_zap przC1)) = none ∧
    persistent_ram_old_size (persistent_ram_save_old (persistent_ram_zap przC1)) = 0 :=
  C5_reset_idempotent.1 przC1 (by decide) (by decide)

/-- C6 counterexample: for a 44-byte region (32 usable bytes after the
12-byte header) and a requested ecc_size of 16, the parity total (32)
consumes the entire usable area; zone initialisation then fails with
-EINVAL and no zone is created, instead of the zone falling back to
operating without ECC. -/
theorem C6_counterexample :
    persistent_ram_new_status 44 0 0 0 0 false ⟨0, 16⟩ = Except.error (-22) := rfl

/-- C6 amended: when the requested parity size would consume the entire
usable area, persistent_ram_init_ecc fails with -EINVAL and
persistent_ram_post_init propagates that failure, so persistent_ram_new
fails and the zone is not created; there is no fallback to running the
zone with ECC disabled. -/
theorem C6_ecc_too_large (buffer_size found_sig found_start found_size sig : Nat)
    (zap_old : Bool) (e : persistent_ram_ecc_info) (h0 : e.ecc_size ≠ 0)
    (h1 : buffer_size ≤ (DIV_ROUND_UP (buffer_size - e.ecc_size)
        ((if e.block_size = 0 then 128 else e.block_size) + e.ecc_size) + 1) * e.ecc_size) :
    persistent_ram_init_ecc buffer_size e = Except.error (-22) ∧
    persistent_ram_post_init buffer_size found_sig found_start found_size sig zap_old e
      = Except.error (-22) := by
  have he : persistent_ram_init_ecc buffer_size e = Except.error (-22) := by
    rw [persistent_ram_init_ecc, if_neg h0]
    simp only [if_neg h0]
    rw [if_pos h1]
  refine ⟨he, ?_⟩
  simp only [persistent_ram_post_init, he]

/-- witness for C6 at the concrete configuration of the counterexample. -/
theorem C6_ecc_too_large_witness :
    persistent_ram_init_ecc 32 ⟨0, 16⟩ = Except.error (-22) ∧
    persistent_ram_post_init 32 0 0 0 0 false ⟨0, 16⟩ = Except.error (-22) :=
  C6_ecc_too_large 32 0 0 0 0 false ⟨0, 16⟩ (by decide) (by decide)

/-- C7: zone carving scenario.  In a region of size 32768, a category
requesting one 8192-byte zone yields the zone at offset 0 and advances
the cursor to 8192; a count-based category carving 4 units from an
8192-byte pool at that cursor yields four 2048-byte zones at 8192, 10240,
12288 and 14336 and advances the cursor to 16384.  The five zones are
pairwise disjoint, at consecutive offsets, and fit inside the region. -/
theorem C7_zone_carving :
    ramoops_init_prz 0 32768 0 8192 = Except.ok (some (0, 8192), 8192) ∧
    ramoops_init_przs 0 32768 8192 8192 (-1) 4
      = Except.ok ([(8192, 2048), (10240, 2048), (12288, 2048), (14336, 2048)], 16384, 4) ∧
    List.Pairwise (fun a b => a.1 + a.2 ≤ b.1)
      [((0 : Nat), (8192 : Nat)), (8192, 2048), (10240, 2048), (12288, 2048),
        (14336, 2048)] ∧
    (0 + 8192 ≤ 32768 ∧ 8192 + 2048 ≤ 32768 ∧ 10240 + 2048 ≤ 32768 ∧
      12288 + 2048 ≤ 32768 ∧ 14336 + 2048 ≤ 32768) := by
  refine ⟨rfl, rfl, by decide, by decide⟩

/-- C8 counterexample: while the backend named 1 is active, registering a
backend named 2 (valid flags and operations) is rejected with -EPERM,
not with -EBUSY; the registry is unchanged. -/
theorem C8_counterexample :
    pstore_register stC8 psiC8 = (stC8, -1) ∧
    (pstore_register stC8 psiC8).2 ≠ -16 := by
  refine ⟨by decide, by decide⟩

/-- C8 amended: while a backend is active, a second backend with the same
name is rejected with -EBUSY; one with a different name is rejected
earlier with -EPERM.  A backend declaring zero capability flags, or
lacking the read or the write operation, is rejected with -EINVAL
whenever the preferred-backend name filter does not already reject it
with -EPERM (that is, whenever no backend name is published or the
published name matches); it is rejected with a nonzero status in every
case.  In every rejection case the registry state is unchanged. -/
theorem C8_register_rules (st : PstoreGlobal) (psi p : PstoreInfo) :
    (st.psinfo = some p → st.backend = some p.name → psi.name ≠ p.name →
      pstore_register st psi = (st, -1)) ∧
    (st.psinfo = some p → st.backend = some p.name → psi.name = p.name →
      psi.flags ≠ 0 → psi.has_read = true → psi.has_write = true →
      pstore_register st psi = (st, -16)) ∧
    (psi.flags = 0 → st.backend = none ∨ st.backend = some psi.name →
      pstore_register st psi = (st, -22)) ∧
    (psi.has_read = false ∨ psi.has_write = false →
      st.backend = none ∨ st.backend = some psi.name →
      pstore_register st psi = (st, -22)) ∧
    (psi.flags = 0 ∨ psi.has_read = false ∨ psi.has_write = false →
      (pstore_register st psi).1 = st ∧ (pstore_register st psi).2 ≠ 0) := by
  refine ⟨?_, ?_, ?_, ?_, ?_⟩
  · intro hpsi hb hname
    simp only [pstore_register, hb]
    rw [if_pos (Ne.symm hname)]
  · intro hpsi hb hname hflags hr hw
    simp only [pstore_register, hb]
    rw [if_neg (by omega : ¬ p.name ≠ psi.name)]
    simp [pstore_register_checks, hflags, hr, hw, hpsi]
  · intro hflags hname
    have hchecks : pstore_register_checks st psi = (st, -22) := by
      simp [pstore_register_checks, hflags]
    rcases hname with h | h
    · simpa [pstore_register, h] using hchecks
    · simpa [pstore_register, h] using hchecks
  · intro hops hname
    have hchecks : pstore_register_checks st psi = (st, -22) := by
      by_cases hf : psi.flags = 0
      · simp [pstore_register_checks, hf]
      · rcases hops with hr | hw
        · simp [pstore_register_checks, hf, hr]
        · simp [pstore_register_checks, hf, hw]
    rcases hname with h | h
    · simpa [pstore_register, h] using hchecks
    · simpa [pstore_register, h] using hchecks
  · intro h
    have hchecks : pstore_register_checks st psi = (st, -22) := by
      by_cases hf : psi.flags = 0
      · simp [pstore_register_checks, hf]
      · rcases h with h0 | hr | hw
        · exact absurd h0 hf
        · simp [pstore_register_checks, hf, hr]
        · simp [pstore_register_checks, hf, hw]
    cases hb : st.backend with
    | none => simp [pstore_register, hb, hchecks]
    | some b =>
      by_cases hn : b ≠ psi.name
      · simp [pstore_register, hb, hn]
      · simp [pstore_register, hb, hn, hchecks]

/-- witness for C8: re-registering a backend with the same name as the
active one yields -EBUSY with the registry unchanged. -/
theorem C8_register_rules_witness :
    pstore_register stC8 ⟨1, 1, true, true, true⟩ = (stC8, -16) :=
  (C8_register_rules stC8 ⟨1, 1, true, true, true⟩ ⟨1, 1, true, true, true⟩).2.1
    (by decide) (by decide) (by decide) (by decide) (by decide) (by decide)

/-- C9: crash-path locking discipline.  pstore_cannot_block_path holds
exactly for NMI context, panic and emergency restart; in such a context
pstore_dump only tries the buffer lock, and when the try fails it
abandons the capture entirely, writing no records; in every other context
it takes the lock unconditionally and runs the capture loop. -/
theorem C9_crash_path_locking (in_nmi : Bool) (reason : KmsgDumpReason)
    (lock_free : Bool) (bufsize kmsg_bytes oopscount : Nat)
    (chunks : List (List Nat)) :
    (pstore_cannot_block_path in_nmi reason = true ↔
      (in_nmi = true ∨ reason = KmsgDumpReason.panic ∨ reason = KmsgDumpReason.emerg)) ∧
    ((pstore_dump in_nmi reason lock_free bufsize kmsg_bytes oopscount chunks).used_trylock
      = pstore_cannot_block_path in_nmi reason) ∧
    (pstore_cannot_block_path in_nmi reason = true → lock_free = false →
      pstore_dump in_nmi reason lock_free bufsize kmsg_bytes oopscount chunks
        = ⟨true, false, true, []⟩) ∧
    (pstore_cannot_block_path in_nmi reason = false →
      (pstore_dump in_nmi reason lock_free bufsize kmsg_bytes oopscount chunks).locked
          = true ∧
      (pstore_dump in_nmi reason lock_free bufsize kmsg_bytes oopscount chunks).skipped
          = false ∧
      (pstore_dump in_nmi reason lock_free bufsize kmsg_bytes oopscount chunks).records
        = pstore_dump_loop (kmsg_dump_reason_str reason) (oopscount + 1) bufsize
            kmsg_bytes chunks 0 1) := by
  refine ⟨?_, ?_, ?_, ?_⟩
  · cases in_nmi <;> cases reason <;> simp [pstore_cannot_block_path]
  · by_cases h : pstore_cannot_block_path in_nmi reason
    · cases lock_free <;> simp [pstore_dump, h]
    · simp [pstore_dump, h]
  · intro h hl
    subst hl
    simp [pstore_dump, h]
  · intro h
    simp [pstore_dump, h]

/-- witness for C9: an oops in NMI context with the lock taken elsewhere
is dropped entirely. -/
theorem C9_crash_path_locking_witness :
    pstore_dump true KmsgDumpReason.oops false 64 16 0 [[1, 2, 3]]
      = ⟨true, false, true, []⟩ :=
  (C9_crash_path_locking true KmsgDumpReason.oops false 64 16 0 [[1, 2, 3]]).2.2.1
    (by decide) rfl

/-- C10: a DMESG record whose part number is not 1 makes
ramoops_pstore_write return -ENOSPC with the context (all zones and
cursors) unchanged: only the first part of a multi-part crash event is
ever persisted. -/
theorem C10_dmesg_part_enospc (cxt : RamoopsContext) (r : PstoreRecord) (cpu : Nat)
    (ht : r.type = PstoreType.DMESG) (hp : r.part ≠ 1) :
    ramoops_pstore_write cxt r cpu = (cxt, -28) := by
  simp [ramoops_pstore_write, ht, hp]

/-- witness for C10 at a concrete context and part-2 record. -/
theorem C10_dmesg_part_enospc_witness :
    ramoops_pstore_write ⟨none, none, none, none, 0, 0, false⟩
      ⟨PstoreType.DMESG, 2, [1, 2], false, 0, 0⟩ 0
      = (⟨none, none, none, none, 0, 0, false⟩, -28) :=
  C10_dmesg_part_enospc ⟨none, none, none, none, 0, 0, false⟩
    ⟨PstoreType.DMESG, 2, [1, 2], false, 0, 0⟩ 0 rfl (by decide)

end Pstore
